import Mathlib

/-!
Verification of the git merge-commit summarizer (`review_pull_requests.py`).

Strings are modelled as `List Char` (Python strings are sequences of code
points).  The two module-level regular expressions `MERGE_LINE` and
`SUMMARY_LINE` are embedded as the concrete matching functions they denote:
both patterns are a literal/digit alternation with no backtracking across
the mandatory pieces (after every greedy `\d+` the pattern requires a
non-digit character, so shortening the greedy run can never help), so a
leftmost scan with a maximal-munch match at each position is the exact
semantics of `re.search`.  `\d` is modelled as the ASCII digits.
-/

abbrev Str := List Char

/-- The NUL separator `\x00` used by the git pretty-format strings. -/
def nulChar : Char := Char.ofNat 0

/-- The whitespace characters stripped by Python `str.strip` / `str.rstrip`
(the `str.isspace` set). -/
def pyWhitespace : List Char :=
  [' ', '\t', '\n', '\x0b', '\x0c', '\r',
   Char.ofNat 0x1c, Char.ofNat 0x1d, Char.ofNat 0x1e, Char.ofNat 0x1f,
   Char.ofNat 0x85, Char.ofNat 0xa0, Char.ofNat 0x1680,
   Char.ofNat 0x2000, Char.ofNat 0x2001, Char.ofNat 0x2002, Char.ofNat 0x2003,
   Char.ofNat 0x2004, Char.ofNat 0x2005, Char.ofNat 0x2006, Char.ofNat 0x2007,
   Char.ofNat 0x2008, Char.ofNat 0x2009, Char.ofNat 0x200a,
   Char.ofNat 0x2028, Char.ofNat 0x2029, Char.ofNat 0x202f,
   Char.ofNat 0x205f, Char.ofNat 0x3000]

def pyIsSpace (c : Char) : Bool := pyWhitespace.contains c

/-- Python `str.lstrip()`. -/
def pyLstrip (s : Str) : Str := s.dropWhile pyIsSpace

/-- Python `str.rstrip()`. -/
def pyRstrip (s : Str) : Str := (s.reverse.dropWhile pyIsSpace).reverse

/-- Python `str.strip()`. -/
def pyStrip (s : Str) : Str := pyLstrip (pyRstrip s)

/-- The line-boundary characters of Python `str.splitlines`, other than the
two-character boundary `\r\n` which is handled separately. -/
def pyLineBreak (c : Char) : Bool :=
  c ∈ ['\n', '\r', '\x0b', '\x0c',
       Char.ofNat 0x1c, Char.ofNat 0x1d, Char.ofNat 0x1e,
       Char.ofNat 0x85, Char.ofNat 0x2028, Char.ofNat 0x2029]

/-- Worker for `pySplitlines`: `acc` holds the current line, reversed. -/
def splitlinesGo : Str → Str → List Str
  | [], acc => if acc.isEmpty then [] else [acc.reverse]
  | '\r' :: '\n' :: t, acc => acc.reverse :: splitlinesGo t []
  | c :: t, acc =>
      if pyLineBreak c then acc.reverse :: splitlinesGo t []
      else splitlinesGo t (c :: acc)

/-- Python `str.splitlines()`. -/
def pySplitlines (s : Str) : List Str := splitlinesGo s []

/-- Python `s.split(sep, 1)` for a one-character separator, as the pair of
the text before and after the first occurrence; `none` when the separator
does not occur (in which case a two-way unpacking raises `ValueError`). -/
def splitFirst (sep : Char) : Str → Option (Str × Str)
  | [] => none
  | c :: t =>
      if c = sep then some ([], t)
      else (splitFirst sep t).map fun p => (c :: p.1, p.2)

/-- Python `int()` on a nonempty string of ASCII digits. -/
def natFromDigits (ds : Str) : Nat :=
  ds.foldl (fun a c => 10 * a + (c.toNat - 48)) 0

/-- Python `str()` of a non-negative integer. -/
def natStr (n : Nat) : Str := (Nat.repr n).toList

/-- `p.isPrefixOf s` as an `Option` that also returns the remainder. -/
def stripLit (p s : Str) : Option Str :=
  if p.isPrefixOf s then some (s.drop p.length) else none

/-! ## `MERGE_LINE = re.compile(r"Merge pull request #(\d+)")` -/

/-- The literal part of `MERGE_LINE`. -/
def mergeLit : Str := "Merge pull request #".toList

/-- Attempt of `MERGE_LINE` at one position: the literal followed by a
nonempty maximal run of digits; returns `int` of the captured group. -/
def mergeMatchAt (s : Str) : Option Nat :=
  match stripLit mergeLit s with
  | none => none
  | some rest =>
      let ds := rest.takeWhile Char.isDigit
      if ds.isEmpty then none else some (natFromDigits ds)

/-- `MERGE_LINE.search(s)`: leftmost position at which the pattern matches,
returning `int(match.group(1))`. -/
def mergeSearch : Str → Option Nat
  | [] => none
  | c :: t =>
      match mergeMatchAt (c :: t) with
      | some n => some n
      | none => mergeSearch t

/-! ## `SUMMARY_LINE` -/

/-- The three named groups of `SUMMARY_LINE`; an optional group that did not
participate in the match is `none`. -/
structure SummaryMatch where
  files : Nat
  insertions : Option Nat
  deletions : Option Nat
deriving Repr, DecidableEq

/-- One optional group `(?:<pre>(\d+)<litS or litNoS>)?` of `SUMMARY_LINE`:
`litS` is the suffix with the plural `s` taken, `litNoS` without it.  On
failure the group is skipped and the input position is unchanged. -/
def optNumGroup (pre litS litNoS : Str) (r : Str) : Option Nat × Str :=
  match stripLit pre r with
  | none => (none, r)
  | some r1 =>
      let ds := r1.takeWhile Char.isDigit
      if ds.isEmpty then (none, r) else
      match stripLit litS (r1.drop ds.length) with
      | some r3 => (some (natFromDigits ds), r3)
      | none =>
          match stripLit litNoS (r1.drop ds.length) with
          | some r3 => (some (natFromDigits ds), r3)
          | none => (none, r)

/-- Attempt of `SUMMARY_LINE` at one position:
`(?P<files>\d+) file[s]? changed` then the optional insertion and deletion
groups. -/
def summaryMatchAt (s : Str) : Option SummaryMatch :=
  let ds := s.takeWhile Char.isDigit
  if ds.isEmpty then none else
  let r0 := s.drop ds.length
  let r1 :=
    match stripLit " files changed".toList r0 with
    | some r => some r
    | none => stripLit " file changed".toList r0
  match r1 with
  | none => none
  | some r1 =>
      let (ins, r2) :=
        optNumGroup ", ".toList " insertions(+)".toList " insertion(+)".toList r1
      let (del, _) :=
        optNumGroup ", ".toList " deletions(-)".toList " deletion(-)".toList r2
      some ⟨natFromDigits ds, ins, del⟩

/-- `SUMMARY_LINE.search(s)`. -/
def summarySearch : Str → Option SummaryMatch
  | [] => none
  | c :: t =>
      match summaryMatchAt (c :: t) with
      | some m => some m
      | none => summarySearch t

/-! ## Command runner -/

/-- The outcome of one `subprocess.run` invocation: exit status and the
captured text streams. -/
structure CommandResult where
  returncode : Int
  stdout : Str
  stderr : Str
deriving Repr, DecidableEq

/-- `GitError`: wraps subprocess errors to provide clearer git context. -/
structure GitError where
  message : Str
deriving Repr, DecidableEq

/-- `run_git_command`, as a function of the subprocess outcome: returns the
captured stdout on exit 0, otherwise fails with
`GitError(result.stderr.strip() or "git command failed")`. -/
def run_git_command (result : CommandResult) : Except GitError Str :=
  if result.returncode ≠ 0 then
    .error ⟨if (pyStrip result.stderr).isEmpty
            then "git command failed".toList
            else pyStrip result.stderr⟩
  else .ok result.stdout

/-! ## History scanner (`get_merge_commits`) -/

/-- The loop body of `get_merge_commits` over `output.strip().splitlines()`:
empty lines are skipped (`if not line: continue`); each remaining line is
split once on NUL into `(commit, subject)` — `none` models the `ValueError`
raised by the two-way unpacking when the line has no NUL — and the subject
is searched with `MERGE_LINE`. -/
def parseMergeLines : List Str → Option (List (Str × Str × Option Nat))
  | [] => some []
  | l :: t =>
      if l.isEmpty then parseMergeLines t
      else
        match splitFirst nulChar l with
        | none => none
        | some (commit, subject) =>
            (parseMergeLines t).map fun rest =>
              (commit, subject, mergeSearch subject) :: rest

/-- `get_merge_commits`, as a function of the `git log` output text. -/
def get_merge_commits (output : Str) : Option (List (Str × Str × Option Nat)) :=
  parseMergeLines (pySplitlines (pyStrip output))

/-! ## Detail extractor (`extract_commit_details`) -/

/-- `extract_commit_details`, as a function of the `git log -1` output:
`output.split("\x00", 2)` unpacked into three parts, each stripped; `none`
models the `ValueError` when the output has fewer than two NULs. -/
def extract_commit_details (output : Str) : Option (Str × Str × Str) :=
  match splitFirst nulChar output with
  | none => none
  | some (author, r) =>
      match splitFirst nulChar r with
      | none => none
      | some (date, body) => some (pyStrip author, pyStrip date, pyStrip body)

/-! ## Diffstat parser (`parse_diffstat`) -/

/-- The list `lines` of `parse_diffstat`:
`[line.rstrip() for line in output.splitlines() if line.strip()]`. -/
def diffstatLines (output : Str) : List Str :=
  ((pySplitlines output).filter fun l => !(pyStrip l).isEmpty).map pyRstrip

/-- One per-file entry: entries without `|` are skipped
(`if "|" not in entry: continue`), the rest split once on the first `|`
into `(filename, stats)`, both stripped. -/
def fileEntry (entry : Str) : Option (Str × Str) :=
  (splitFirst '|' entry).map fun p => (pyStrip p.1, pyStrip p.2)

/-- `parse_diffstat`, as a function of the `git show --stat` output text:
`(files_changed, insertions, deletions, file_summaries)`. -/
def parse_diffstat (output : Str) : Nat × Nat × Nat × List (Str × Str) :=
  let lines := diffstatLines output
  match lines.getLast? with
  | none => (0, 0, 0, [])
  | some last =>
      let sm := summarySearch last
      let files_changed := match sm with | some m => m.files | none => 0
      let insertions := match sm with | some m => m.insertions.getD 0 | none => 0
      let deletions := match sm with | some m => m.deletions.getD 0 | none => 0
      (files_changed, insertions, deletions, lines.dropLast.filterMap fileEntry)

/-! ## Summary data model -/

structure PullRequestSummary where
  commit : Str
  title : Str
  pr_number : Option Nat
  author : Str
  date : Str
  body : Str
  files_changed : Nat
  insertions : Nat
  deletions : Nat
  file_summaries : List (Str × Str)
deriving Repr, DecidableEq

/-- `PullRequestSummary.identifier`: `f"PR #{pr_number}"` when the PR number
is set, else `commit[:7]`. -/
def PullRequestSummary.identifier (s : PullRequestSummary) : Str :=
  match s.pr_number with
  | some n => "PR #".toList ++ natStr n
  | none => s.commit.take 7

/-- `build_summary`, as a function of the commit triple and of the two git
output texts consumed by `extract_commit_details` and `parse_diffstat`;
`none` models the `ValueError` escaping from `extract_commit_details`. -/
def build_summary (commit_info : Str × Str × Option Nat)
    (details_output diffstat_output : Str) : Option PullRequestSummary :=
  match extract_commit_details details_output with
  | none => none
  | some (author, date, body0) =>
      let (files_changed, insertions, deletions, file_summaries) :=
        parse_diffstat diffstat_output
      let body := if '\n' ∈ body0 then pyStrip body0 else body0
      some { commit := commit_info.1, title := commit_info.2.1,
             pr_number := commit_info.2.2,
             author, date, body,
             files_changed, insertions, deletions, file_summaries }

/-! ## Renderer (`render_markdown`) -/

/-- The lines appended for one summary in the loop of `render_markdown`. -/
def renderSummary (s : PullRequestSummary) : List Str :=
  ["## ".toList ++ s.identifier ++ ": ".toList ++ s.title,
   [],
   "- **Commit:** `".toList ++ s.commit ++ "`".toList,
   "- **Author:** ".toList ++ s.author,
   "- **Date:** ".toList ++ s.date,
   "- **Changes:** ".toList ++ natStr s.files_changed ++ " file(s), ".toList
     ++ natStr s.insertions ++ " insertion(s), ".toList
     ++ natStr s.deletions ++ " deletion(s)".toList]
  ++ (if s.body.isEmpty then [] else
        [[], "**Commit message body:**".toList, []]
        ++ (pySplitlines s.body).map fun bl =>
             if bl.isEmpty then ">".toList else "> ".toList ++ bl)
  ++ (if s.file_summaries.isEmpty then [] else
        [[], "**Files changed:**".toList, [],
         "| File | Diffstat |".toList, "| --- | --- |".toList]
        ++ s.file_summaries.map fun p =>
             "| ".toList ++ p.1 ++ " | ".toList ++ p.2 ++ " |".toList)
  ++ [[]]

/-- `render_markdown`. -/
def render_markdown (summaries : List PullRequestSummary) : Str :=
  let lines : List Str := ["# Pull Request Review Summary".toList, []]
  if summaries.isEmpty then
    List.intercalate ['\n']
      (lines ++ ["No merge commits were found in this repository.".toList])
  else
    let lines := lines ++ ["Generated by `review_pull_requests.py`.\n".toList]
    let lines := lines ++ summaries.flatMap renderSummary
    pyRstrip (List.intercalate ['\n'] lines) ++ ['\n']

/-- `pat` occurs as a contiguous substring of the second argument. -/
def isSubstring (pat : Str) : Str → Bool
  | [] => pat.isEmpty
  | s@(_ :: t) => pat.isPrefixOf s || isSubstring pat t

/-! ## Concrete end-to-end scenario inputs (spec §8, last bullet) -/

/-- `git log` output for the scenario: one merge commit. -/
def c6LogOutput : Str :=
  "3f2a1b4c5d6e7f8091a2b3c4d5e6f70812345678\x00Merge pull request #42 from user/branch".toList

/-- `git log -1` output for the scenario commit. -/
def c6DetailsOutput : Str :=
  "Alice\x002024-01-01\x00Merge pull request #42 ...\n\nFixes bug".toList

/-- `git show --stat` output for the scenario commit. -/
def c6DiffstatOutput : Str :=
  "src/a.py | 5 +++--\n1 file changed, 3 insertions(+), 2 deletions(-)".toList

/-- The Markdown rendered by the pipeline on the scenario inputs. -/
def c6Markdown : Option Str :=
  (get_merge_commits c6LogOutput).bind fun infos =>
    infos.head?.bind fun info =>
      (build_summary info c6DetailsOutput c6DiffstatOutput).map fun s =>
        render_markdown [s]

/-! ## Helper lemmas -/

theorem head?_dropWhile_not {p : Char → Bool} :
    ∀ {l : Str} {c : Char}, (l.dropWhile p).head? = some c → p c = false := by
  intro l
  induction l with
  | nil => intro c h; simp [List.dropWhile] at h
  | cons x t ih =>
      intro c h
      by_cases hx : p x
      · rw [List.dropWhile_cons_of_pos hx] at h
        exact ih h
      · rw [List.dropWhile_cons_of_neg hx] at h
        simp at h
        subst h
        simpa using hx

/-- After a Python `rstrip`, the last character (if any) is not whitespace. -/
theorem pyRstrip_getLast? {s : Str} {c : Char}
    (h : (pyRstrip s).getLast? = some c) : pyIsSpace c = false := by
  unfold pyRstrip at h
  rw [List.getLast?_reverse] at h
  exact head?_dropWhile_not h

/-- `takeWhile` on an append whose left part satisfies the predicate
throughout and whose right part starts with a failing character. -/
theorem takeWhile_append_of_all {p : Char → Bool} :
    ∀ (ds rest : Str), (∀ c ∈ ds, p c = true) →
      (∀ c, rest.head? = some c → p c = false) →
      (ds ++ rest).takeWhile p = ds := by
  intro ds
  induction ds with
  | nil =>
      intro rest _ hrest
      cases rest with
      | nil => rfl
      | cons r t =>
          simp only [List.nil_append, List.takeWhile]
          rw [hrest r rfl]
  | cons d ds ih =>
      intro rest hds hrest
      simp only [List.cons_append, List.takeWhile]
      rw [hds d (List.mem_cons_self d ds)]
      simp [ih rest (fun c hc => hds c (List.mem_cons_of_mem d hc)) hrest]

theorem stripLit_append (p x : Str) : stripLit p (p ++ x) = some x := by
  unfold stripLit
  rw [if_pos ( List.isPrefixOf_iff_prefix.mpr (List.prefix_append p x))]
  rw [List.drop_left]

/-- `splitFirst` fails exactly on strings not containing the separator. -/
theorem splitFirst_eq_none_iff (sep : Char) :
    ∀ (s : Str), splitFirst sep s = none ↔ sep ∉ s := by
  intro s
  induction s with
  | nil => simp [splitFirst]
  | cons c t ih =>
      by_cases hc : c = sep
      · subst hc; simp [splitFirst]
      · simp only [splitFirst, if_neg hc, List.mem_cons]
        cases h : splitFirst sep t with
        | none => simp [ih.mp h, Ne.symm hc, hc]
        | some p =>
            have hmem : sep ∈ t := by
              by_contra hnot
              rw [ih.mpr hnot] at h
              exact Option.noConfusion h
            simp [hmem]

theorem stripLit_eq_some {p s r : Str} (h : stripLit p s = some r) : s = p ++ r := by
  unfold stripLit at h
  split at h
  · next hpre =>
      obtain ⟨t, ht⟩ := List.isPrefixOf_iff_prefix.mp hpre
      injection h with h'
      subst h'
      rw [← ht, List.drop_left]
  · cases h

/-- A leading match of `MERGE_LINE`: the literal followed by a nonempty digit
run and then a non-digit (or nothing) captures exactly that digit run. -/
theorem mergeMatchAt_lead (ds rest : Str) (hne : ds ≠ [])
    (hds : ∀ c ∈ ds, c.isDigit = true)
    (hrest : ∀ c, rest.head? = some c → c.isDigit = false) :
    mergeMatchAt (mergeLit ++ (ds ++ rest)) = some (natFromDigits ds) := by
  unfold mergeMatchAt
  rw [stripLit_append]
  simp only
  rw [takeWhile_append_of_all ds rest hds hrest]
  cases ds with
  | nil => exact absurd rfl hne
  | cons d t => rfl

/-- A successful match at position 0 is what `re.search` returns. -/
theorem mergeSearch_of_matchAt {s : Str} {n : Nat}
    (h : mergeMatchAt s = some n) : mergeSearch s = some n := by
  cases s with
  | nil =>
      rw [show mergeMatchAt [] = none from rfl] at h
      cases h
  | cons c t => simp [mergeSearch, h]

/-- If `MERGE_LINE` matches at some position then `re.search` succeeds. -/
theorem mergeSearch_append_isSome (a : Str) {s : Str} {n : Nat}
    (h : mergeMatchAt s = some n) : (mergeSearch (a ++ s)).isSome := by
  induction a with
  | nil => simp [mergeSearch_of_matchAt h]
  | cons c a ih =>
      rw [List.cons_append]
      cases hm : mergeMatchAt (c :: (a ++ s)) with
      | some m => simp [mergeSearch, hm]
      | none => simpa [mergeSearch, hm] using ih

/-- A successful `mergeMatchAt` decomposes its input as the literal followed
by the captured nonempty digit run. -/
theorem mergeMatchAt_decomp {s : Str} {n : Nat} (h : mergeMatchAt s = some n) :
    ∃ ds b, s = mergeLit ++ (ds ++ b) ∧ ds ≠ [] ∧
      (∀ c ∈ ds, c.isDigit = true) ∧ n = natFromDigits ds := by
  unfold mergeMatchAt at h
  cases hp : stripLit mergeLit s with
  | none => rw [hp] at h; cases h
  | some rest =>
      rw [hp] at h
      simp only at h
      by_cases hne : (rest.takeWhile Char.isDigit).isEmpty
      · rw [if_pos hne] at h; cases h
      · rw [if_neg hne] at h
        injection h with h'
        refine ⟨rest.takeWhile Char.isDigit, rest.dropWhile Char.isDigit,
          ?_, ?_, ?_, h'.symm⟩
        · rw [List.takeWhile_append_dropWhile]
          exact stripLit_eq_some hp
        · intro hnil; rw [hnil] at hne; exact hne rfl
        · intro c hc; exact List.mem_takeWhile_imp hc

/-- A successful `MERGE_LINE` search decomposes the subject as anything,
then the literal, then the captured nonempty digit run. -/
theorem mergeSearch_decomp :
    ∀ {s : Str} {n : Nat}, mergeSearch s = some n →
      ∃ a ds b, s = a ++ (mergeLit ++ (ds ++ b)) ∧ ds ≠ [] ∧
        (∀ c ∈ ds, c.isDigit = true) ∧ n = natFromDigits ds := by
  intro s
  induction s with
  | nil => intro n h; cases h
  | cons c t ih =>
      intro n h
      rw [mergeSearch] at h
      cases hm : mergeMatchAt (c :: t) with
      | some m =>
          rw [hm] at h
          injection h with h'
          subst h'
          obtain ⟨ds, b, heq, hne, hdig, hval⟩ := mergeMatchAt_decomp hm
          exact ⟨[], ds, b, by rw [← heq]; rfl, hne, hdig, hval⟩
      | none =>
          rw [hm] at h
          obtain ⟨a, ds, b, heq, hne, hdig, hval⟩ := ih h
          exact ⟨c :: a, ds, b, by rw [List.cons_append, ← heq], hne, hdig, hval⟩

/-- Every triple recorded by the scanning loop carries the `MERGE_LINE`
search result of its own subject. -/
theorem parseMergeLines_mem :
    ∀ {ls : List Str} {res : List (Str × Str × Option Nat)},
      parseMergeLines ls = some res → ∀ x ∈ res, x.2.2 = mergeSearch x.2.1 := by
  intro ls
  induction ls with
  | nil =>
      intro res h x hx
      injection h with h'
      subst h'
      cases hx
  | cons l t ih =>
      intro res h x hx
      rw [parseMergeLines] at h
      by_cases hl : l.isEmpty
      · rw [if_pos hl] at h; exact ih h x hx
      · rw [if_neg hl] at h
        cases hsp : splitFirst nulChar l with
        | none => rw [hsp] at h; cases h
        | some p =>
            rw [hsp] at h
            cases hrec : parseMergeLines t with
            | none => rw [hrec] at h; cases h
            | some rest =>
                rw [hrec] at h
                simp only [Option.map_some', Option.some.injEq] at h
                subst h
                rcases List.mem_cons.mp hx with h1 | h2
                · subst h1; rfl
                · exact ih hrec x h2

/-- The scanning loop succeeds whenever every nonempty line has a NUL. -/
theorem parseMergeLines_total :
    ∀ (ls : List Str), (∀ l ∈ ls, l ≠ [] → nulChar ∈ l) →
      (parseMergeLines ls).isSome := by
  intro ls
  induction ls with
  | nil => intro _; rfl
  | cons l t ih =>
      intro h
      rw [parseMergeLines]
      by_cases hl : l.isEmpty
      · rw [if_pos hl]
        exact ih fun x hx hne => h x (List.mem_cons_of_mem l hx) hne
      · rw [if_neg hl]
        have hne : l ≠ [] := by
          intro hnil; rw [hnil] at hl; exact hl rfl
        have hnul : nulChar ∈ l := h l (List.mem_cons_self l t) hne
        cases hsp : splitFirst nulChar l with
        | none => exact absurd ((splitFirst_eq_none_iff nulChar l).mp hsp) (by simp [hnul])
        | some p =>
            have := ih fun x hx hx2 => h x (List.mem_cons_of_mem l hx) hx2
            cases hrec : parseMergeLines t with
            | none => rw [hrec] at this; cases this
            | some rest => rfl

/-- `build_summary` copies the hash and PR number of its input verbatim. -/
theorem build_summary_fields {info : Str × Str × Option Nat}
    {dOut fOut : Str} {s : PullRequestSummary}
    (h : build_summary info dOut fOut = some s) :
    s.commit = info.1 ∧ s.title = info.2.1 ∧ s.pr_number = info.2.2 := by
  unfold build_summary at h
  cases hx : extract_commit_details dOut with
  | none => rw [hx] at h; cases h
  | some d =>
      obtain ⟨author, date, body0⟩ := d
      rw [hx] at h
      simp only at h
      injection h with h'
      subst h'
      exact ⟨rfl, rfl, rfl⟩

/-- With no PR number, `identifier` is the 7-character hash prefix. -/
theorem identifier_of_none {s : PullRequestSummary} (h : s.pr_number = none) :
    s.identifier = s.commit.take 7 := by
  unfold PullRequestSummary.identifier
  rw [h]

/-- `splitFirst` splits at the first occurrence of the separator. -/
theorem splitFirst_eq_some_iff (sep : Char) :
    ∀ (s a b : Str), splitFirst sep s = some (a, b) ↔
      (s = a ++ sep :: b ∧ sep ∉ a) := by
  intro s
  induction s with
  | nil =>
      intro a b
      constructor
      · intro h; simp [splitFirst] at h
      · intro ⟨h, _⟩; cases a <;> simp at h
  | cons c t ih =>
      intro a b
      by_cases hc : c = sep
      · subst hc
        simp only [splitFirst, if_pos rfl]
        constructor
        · intro h
          cases h
          exact ⟨rfl, by simp⟩
        · intro ⟨heq, hnot⟩
          cases a with
          | nil => simp at heq; simp [heq]
          | cons a0 at' =>
              simp only [List.cons_append, List.cons.injEq] at heq
              exact absurd (heq.1 ▸ List.mem_cons_self a0 at') hnot
      · simp only [splitFirst, if_neg hc]
        constructor
        · intro h
          cases hsp : splitFirst sep t with
          | none => rw [hsp] at h; simp at h
          | some p =>
              rw [hsp] at h
              simp only [Option.map_some', Option.some.injEq, Prod.mk.injEq] at h
              obtain ⟨ha, hb⟩ := h
              obtain ⟨heq, hnot⟩ := (ih p.1 p.2).mp (by rw [hsp])
              subst ha hb
              refine ⟨by rw [heq]; rfl, ?_⟩
              intro hmem
              rcases List.mem_cons.mp hmem with h1 | h2
              · exact hc h1.symm
              · exact hnot h2
        · intro ⟨heq, hnot⟩
          cases a with
          | nil => simp at heq; exact absurd heq.1 hc
          | cons a0 at' =>
              simp only [List.cons_append, List.cons.injEq] at heq
              obtain ⟨hca, hta⟩ := heq
              subst hca
              have : splitFirst sep t = some (at', b) :=
                (ih at' b).mpr ⟨hta, fun hm => hnot (List.mem_cons_of_mem _ hm)⟩
              rw [this]
              rfl

/-! ## Claims -/

/-- Claim C1: for every subject line matching `Merge pull request #<N>`,
`get_merge_commits` records `pr_number = N` (the recorded number is the
`MERGE_LINE` search of the subject, and a subject consisting of the literal
followed by the digits of `N` yields `N`; a match anywhere in the subject
yields a present number); for a non-matching subject the number is `None`
and the built summary's `identifier` is the 7-character hash prefix. -/
theorem claim_C1 :
    (∀ (output : Str) (res : List (Str × Str × Option Nat)),
        get_merge_commits output = some res →
        ∀ x ∈ res, x.2.2 = mergeSearch x.2.1)
    ∧ (∀ ds rest : Str, ds ≠ [] → (∀ c ∈ ds, c.isDigit = true) →
        (∀ c, rest.head? = some c → c.isDigit = false) →
        mergeSearch (mergeLit ++ (ds ++ rest)) = some (natFromDigits ds))
    ∧ (∀ a ds rest : Str, ds ≠ [] → (∀ c ∈ ds, c.isDigit = true) →
        (∀ c, rest.head? = some c → c.isDigit = false) →
        (mergeSearch (a ++ (mergeLit ++ (ds ++ rest)))).isSome = true)
    ∧ (∀ (info : Str × Str × Option Nat) (dOut fOut : Str)
          (s : PullRequestSummary),
        build_summary info dOut fOut = some s → info.2.2 = none →
        s.identifier = info.1.take 7) := by
  refine ⟨?_, ?_, ?_, ?_⟩
  · intro output res h x hx
    exact parseMergeLines_mem h x hx
  · intro ds rest h1 h2 h3
    exact mergeSearch_of_matchAt (mergeMatchAt_lead ds rest h1 h2 h3)
  · intro a ds rest h1 h2 h3
    exact mergeSearch_append_isSome a (mergeMatchAt_lead ds rest h1 h2 h3)
  · intro info dOut fOut s h hnone
    obtain ⟨hc, _, hp⟩ := build_summary_fields h
    rw [identifier_of_none (hp.trans hnone), hc]

/-- Concrete instance of `claim_C1`. -/
theorem claim_C1_witness :
    mergeSearch (mergeLit ++ ("42".toList ++ " from u/b".toList))
      = some (natFromDigits "42".toList)
    ∧ (mergeSearch ("Revert ".toList
        ++ (mergeLit ++ ("7".toList ++ [])))).isSome = true :=
  ⟨claim_C1.2.1 "42".toList " from u/b".toList (by decide) (by decide)
      (by decide),
   claim_C1.2.2.1 "Revert ".toList "7".toList [] (by decide) (by decide)
      (by decide)⟩

/-- Claim C5 fails as stated: the pattern `\d+` also captures `0`, so a
subject `Merge pull request #0 ...` produces the non-positive recorded
number 0. -/
theorem claim_C5_counterexample :
    get_merge_commits "deadbeef\x00Merge pull request #0 from u/b".toList
      = some [("deadbeef".toList,
               "Merge pull request #0 from u/b".toList, some 0)]
    ∧ ¬ (0 : Nat) > 0 :=
  ⟨by decide, by decide⟩

/-- Claim C5 (amended): every present `pr_number` recorded by the pipeline
is the non-negative value of a nonempty digit run captured after the
literal `Merge pull request #` in the subject. -/
theorem claim_C5_amended :
    ∀ (output : Str) (res : List (Str × Str × Option Nat)),
      get_merge_commits output = some res →
      ∀ x ∈ res, ∀ n : Nat, x.2.2 = some n →
        ∃ a ds b : Str, x.2.1 = a ++ (mergeLit ++ (ds ++ b)) ∧ ds ≠ [] ∧
          (∀ c ∈ ds, c.isDigit = true) ∧ n = natFromDigits ds := by
  intro output res h x hx n hn
  have hsearch := parseMergeLines_mem h x hx
  rw [hn] at hsearch
  exact mergeSearch_decomp hsearch.symm

/-- Concrete instance of `claim_C5_amended`. -/
theorem claim_C5_witness :
    ∃ a ds b : Str,
      "Merge pull request #42 x".toList = a ++ (mergeLit ++ (ds ++ b))
      ∧ ds ≠ [] ∧ (∀ c ∈ ds, c.isDigit = true)
      ∧ 42 = natFromDigits ds :=
  claim_C5_amended "h1\x00Merge pull request #42 x".toList
    [("h1".toList, "Merge pull request #42 x".toList, some 42)] (by decide)
    ("h1".toList, "Merge pull request #42 x".toList, some 42) (by decide)
    42 rfl

/-- Claim C8: `run_git_command` returns the captured stdout exactly on exit
status zero; on any non-zero status it fails with a `GitError` carrying the
trimmed stderr, or the generic message when the trimmed stderr is empty. -/
theorem claim_C8 (result : CommandResult) :
    (result.returncode = 0 → run_git_command result = .ok result.stdout)
    ∧ (result.returncode ≠ 0 → pyStrip result.stderr = [] →
        run_git_command result = .error ⟨"git command failed".toList⟩)
    ∧ (result.returncode ≠ 0 → pyStrip result.stderr ≠ [] →
        run_git_command result = .error ⟨pyStrip result.stderr⟩) := by
  refine ⟨?_, ?_, ?_⟩
  · intro h
    unfold run_git_command
    rw [if_neg (by simp [h])]
  · intro h hs
    unfold run_git_command
    rw [if_pos h, hs]
    rfl
  · intro h hs
    unfold run_git_command
    rw [if_pos h]
    congr 1
    rw [if_neg (by simpa [List.isEmpty_iff] using hs)]

/-- Concrete instance of `claim_C8`. -/
theorem claim_C8_witness :
    run_git_command ⟨0, "out".toList, "err".toList⟩ = .ok "out".toList
    ∧ run_git_command ⟨1, [], "  ".toList⟩
        = .error ⟨"git command failed".toList⟩
    ∧ run_git_command ⟨1, [], " boom ".toList⟩ = .error ⟨"boom".toList⟩ :=
  ⟨(claim_C8 _).1 rfl,
   (claim_C8 _).2.1 (by decide) (by decide),
   (claim_C8 _).2.2 (by decide) (by decide)⟩

/-- Claim C9: the scanning loop of `get_merge_commits` is total when every
nonempty line of the stripped output contains a NUL byte, and fails (the
two-way unpacking raises `ValueError`, modelled as `none`) on an output
whose single line is nonempty and NUL-free. -/
theorem claim_C9 :
    (∀ output : Str,
        (∀ l ∈ pySplitlines (pyStrip output), l ≠ [] → nulChar ∈ l) →
        (get_merge_commits output).isSome = true)
    ∧ ("abc".toList ≠ [] ∧ nulChar ∉ "abc".toList
        ∧ pySplitlines (pyStrip "abc".toList) = ["abc".toList]
        ∧ get_merge_commits "abc".toList = none) := by
  constructor
  · intro output h
    exact parseMergeLines_total _ h
  · exact ⟨by decide, by decide, by decide, by decide⟩

/-- Concrete instance of `claim_C9`. -/
theorem claim_C9_witness : (get_merge_commits "h\x00s".toList).isSome = true :=
  claim_C9.1 "h\x00s".toList (by decide)

/-- The non-empty branch of `render_markdown`, written out. -/
theorem render_markdown_nonempty (summaries : List PullRequestSummary)
    (h : summaries ≠ []) :
    render_markdown summaries =
      pyRstrip (List.intercalate ['\n']
        (["# Pull Request Review Summary".toList, [],
          "Generated by `review_pull_requests.py`.\n".toList]
         ++ summaries.flatMap renderSummary)) ++ ['\n'] := by
  cases summaries with
  | nil => exact absurd rfl h
  | cons s t => rfl

/-- Claim C2: `parse_diffstat` returns `(0, 0, 0, [])` on output with no
non-blank lines; otherwise the last non-blank line is matched against the
aggregate pattern, `"3 files changed, 10 insertions(+), 2 deletions(-)"`
giving `(3, 10, 2)` and `"1 file changed"` giving `(1, 0, 0)` with every
unmatched optional group defaulting to 0. -/
theorem claim_C2 :
    (∀ output : Str,
        (∀ l ∈ pySplitlines output, (pyStrip l).isEmpty = true) →
        parse_diffstat output = (0, 0, 0, []))
    ∧ parse_diffstat "3 files changed, 10 insertions(+), 2 deletions(-)".toList
        = (3, 10, 2, [])
    ∧ parse_diffstat "1 file changed".toList = (1, 0, 0, []) := by
  refine ⟨?_, by decide, by decide⟩
  intro output h
  have hlines : diffstatLines output = [] := by
    unfold diffstatLines
    rw [List.filter_eq_nil_iff.mpr ?_]
    · rfl
    · intro a ha
      simp [h a ha]
  simp [parse_diffstat, hlines]

/-- Concrete instance of `claim_C2`. -/
theorem claim_C2_witness :
    parse_diffstat "".toList = (0, 0, 0, [])
    ∧ parse_diffstat " \n\t\n ".toList = (0, 0, 0, []) :=
  ⟨claim_C2.1 "".toList (by decide), claim_C2.1 " \n\t\n ".toList (by decide)⟩

/-- Claim C3: on the empty summary list, `render_markdown` returns exactly
the fixed no-merge-commits notice (the fixed header plus the notice line)
and nothing else. -/
theorem claim_C3 :
    render_markdown [] =
      ("# Pull Request Review Summary\n\n"
        ++ "No merge commits were found in this repository.").toList := by
  decide

/-- Claim C4 fails as stated over every input list: on the empty list the
returned notice does not end with a newline at all. -/
theorem claim_C4_counterexample :
    render_markdown [] ≠ [] ∧ (render_markdown []).getLast? ≠ some '\n' :=
  ⟨by decide, by decide⟩

/-- Claim C4 (amended): for every non-empty summary list the rendered
Markdown is right-trimmed and ends with exactly one trailing newline — its
last character is a newline and the character before it, when present, is
not whitespace (hence not a newline), regardless of trailing whitespace in
the input fields. -/
theorem claim_C4_amended (summaries : List PullRequestSummary)
    (h : summaries ≠ []) :
    (render_markdown summaries).getLast? = some '\n'
    ∧ ∀ c, ((render_markdown summaries).dropLast).getLast? = some c →
        pyIsSpace c = false := by
  rw [render_markdown_nonempty summaries h]
  refine ⟨List.getLast?_concat _, ?_⟩
  rw [List.dropLast_concat]
  intro c hc
  exact pyRstrip_getLast? hc

/-- Concrete instance of `claim_C4_amended`, with trailing whitespace in
the input fields. -/
theorem claim_C4_witness :
    (render_markdown [⟨"c0ffee42".toList, "title  ".toList, none,
        "Alice ".toList, "2024-01-01 ".toList, [], 0, 0, 0, []⟩]).getLast?
      = some '\n' :=
  (claim_C4_amended _ (List.cons_ne_nil _ _)).1

/-- Claim C6: on the end-to-end scenario input (one merge commit with
subject `Merge pull request #42 from user/branch`, author `Alice`, date
`2024-01-01`, a two-paragraph body, and a one-file diffstat) the rendered
Markdown contains the `## PR #42: ...` heading, the `- **Changes:** ...`
bullet, and the `| src/a.py | 5 +++-- |` table row. -/
theorem claim_C6 :
    (c6Markdown.map fun md =>
      (isSubstring "## PR #42: Merge pull request #42 from user/branch".toList md
       && isSubstring "- **Changes:** 1 file(s), 3 insertion(s), 2 deletion(s)".toList md
       && isSubstring "| src/a.py | 5 +++-- |".toList md)) = some true := by
  set_option maxRecDepth 10000 in decide

/-- Claim C7: every non-blank line before the last is treated as a per-file
entry — the per-file list is the in-order `filterMap` of those lines, an
entry is skipped exactly when it has no `|`, and a line that does contain
`|` is split at its first `|` into the trimmed (filename, stat-text)
pair. -/
theorem claim_C7 (output : Str) (h : diffstatLines output ≠ []) :
    (parse_diffstat output).2.2.2
        = (diffstatLines output).dropLast.filterMap fileEntry
    ∧ (∀ e : Str, fileEntry e = none ↔ '|' ∉ e)
    ∧ (∀ e a b : Str, splitFirst '|' e = some (a, b) ↔
        (e = a ++ '|' :: b ∧ '|' ∉ a))
    ∧ (∀ a b : Str, '|' ∉ a →
        fileEntry (a ++ '|' :: b) = some (pyStrip a, pyStrip b)) := by
  refine ⟨?_, ?_, ?_, ?_⟩
  · cases hlast : (diffstatLines output).getLast? with
    | none => exact absurd (List.getLast?_eq_none_iff.mp hlast) h
    | some last => simp [parse_diffstat, hlast]
  · intro e
    unfold fileEntry
    rw [Option.map_eq_none', splitFirst_eq_none_iff]
  · intro e a b
    exact splitFirst_eq_some_iff '|' e a b
  · intro a b hnot
    unfold fileEntry
    rw [(splitFirst_eq_some_iff '|' (a ++ '|' :: b) a b).mpr ⟨rfl, hnot⟩]
    rfl

/-- Concrete instance of `claim_C7`. -/
theorem claim_C7_witness :
    (parse_diffstat "a | x\nskipme\nb|y\n2 files changed".toList).2.2.2
      = [("a".toList, "x".toList), ("b".toList, "y".toList)] := by
  rw [(claim_C7 "a | x\nskipme\nb|y\n2 files changed".toList (by decide)).1]
  decide

/-- Claim C10 fails as stated: when an earlier line splits to the same
(filename, stat-text) pair as the last line, that pair does appear in
`file_summaries` even though the last line itself is never processed as a
per-file entry.  Here the output is two copies of `a | x`. -/
theorem claim_C10_counterexample :
    (diffstatLines "a | x\na | x".toList).getLast? = some "a | x".toList
    ∧ '|' ∈ "a | x".toList
    ∧ summarySearch "a | x".toList = none
    ∧ parse_diffstat "a | x\na | x".toList
        = (0, 0, 0, [("a".toList, "x".toList)])
    ∧ fileEntry "a | x".toList = some ("a".toList, "x".toList)
    ∧ ("a".toList, "x".toList) ∈ (parse_diffstat "a | x\na | x".toList).2.2.2 := by
  refine ⟨by decide, by decide, by decide, by decide, by decide, by decide⟩

/-- Claim C10 (amended): when the last non-blank line contains `|` but does
not match the aggregate pattern, all totals are 0 and `file_summaries` is
drawn solely from the lines before the last; in particular the last line's
own pair is absent whenever no earlier line produces the same pair. -/
theorem claim_C10_amended (output last : Str)
    (hlast : (diffstatLines output).getLast? = some last)
    (_hbar : '|' ∈ last)
    (hnomatch : summarySearch last = none) :
    parse_diffstat output
        = (0, 0, 0, (diffstatLines output).dropLast.filterMap fileEntry)
    ∧ (∀ p, fileEntry last = some p →
        p ∉ (diffstatLines output).dropLast.filterMap fileEntry →
        p ∉ (parse_diffstat output).2.2.2) := by
  have hmain : parse_diffstat output
      = (0, 0, 0, (diffstatLines output).dropLast.filterMap fileEntry) := by
    simp [parse_diffstat, hlast, hnomatch]
  refine ⟨hmain, ?_⟩
  intro p _ habs
  rw [hmain]
  exact habs

/-- Concrete instance of `claim_C10_amended`. -/
theorem claim_C10_witness :
    parse_diffstat "a | x\nzz|y".toList = (0, 0, 0, [("a".toList, "x".toList)]) := by
  rw [(claim_C10_amended "a | x\nzz|y".toList "zz|y".toList (by decide)
        (by decide) (by decide)).1]
  decide
